import Mathlib

/-!
Shallow embedding of the alarm scheduling/trigger core of the
alarm-nosnooze application (src/services/alarmService.ts and
src/types/index.ts), with proofs about the spec's claims.

Modelling conventions:
* JavaScript numbers that can be `NaN` (results of `parseInt`) are
  `Option Int`, `none` playing the role of `NaN`; comparisons against
  `NaN` are `false`, as in JS.
* Instants are seconds of local time since a fixed epoch (`Int`); days
  are uniform (86400 s) and the epoch day is a Thursday (`getDay() = 4`),
  as for the JS epoch 1970-01-01.  Sub-second precision is dropped (the
  code zeroes seconds and milliseconds of every date it builds).
* `AsyncStorage.getItem('alarms')` plus `JSON.parse`/`JSON.stringify`
  round-trips are modelled as a value of type `Option (List Alarm)`
  (`none` = key absent).
* `d.setDate(d.getDate() + 1)` adds exactly one day (JS normalises
  out-of-range day-of-month values); `d.setDate(now.getDate() + k)` is
  modelled as "`k` days after `now`'s day", which is exact whenever the
  two dates involved lie in the same month.
-/

/-- JS strict equality between a possibly-`NaN` number and a number. -/
def jsEqI : Option Int → Int → Bool
  | none, _ => false
  | some v, n => v == n

/-- JS `<` between a possibly-`NaN` number and a number (`NaN < x` is false). -/
def jsLt : Option Int → Int → Bool
  | none, _ => false
  | some v, n => v < n

/-- JS `parseInt` on a string: skip leading whitespace, optional sign,
then the leading run of decimal digits; `none` models `NaN`.  (Hex
prefixes are not modelled; no input of this program uses them.) -/
def jsParseIntStr (s : String) : Option Int :=
  let cs := s.toList.dropWhile Char.isWhitespace
  let signRest : Int × List Char :=
    match cs with
    | '-' :: t => (-1, t)
    | '+' :: t => (1, t)
    | t => (1, t)
  let ds := signRest.2.takeWhile Char.isDigit
  if ds.isEmpty then none
  else some (signRest.1 * ds.foldl (fun n c => n * 10 + ((c.toNat : Int) - 48)) 0)

/-- JS `parseInt` applied to a possibly-`undefined` string
(`parseInt(undefined)` is `NaN`). -/
def jsParseInt : Option String → Option Int
  | none => none
  | some s => jsParseIntStr s

/-- Splitting of a character list at every occurrence of a separator
character, keeping empty pieces. -/
def splitCharsOn (sep : Char) : List Char → List Char → List (List Char)
  | [], acc => [acc.reverse]
  | c :: cs, acc =>
      if c = sep then acc.reverse :: splitCharsOn sep cs []
      else splitCharsOn sep cs (c :: acc)

/-- JS `String.prototype.split` with a single-character separator (the
only form the program uses): every occurrence splits, empty pieces are
kept, and an empty input yields one empty piece. -/
def jsSplit (sep : Char) (s : String) : List String :=
  (splitCharsOn sep s.toList []).map String.mk

/-- Day index (local days since the epoch) of an instant. -/
def dayIndexOf (t : Int) : Int := t.ediv 86400

/-- `Date.getHours()` of an instant. -/
def hourOfInstant (t : Int) : Int := (t.emod 86400).ediv 3600

/-- `Date.getMinutes()` of an instant. -/
def minuteOfInstant (t : Int) : Int := ((t.emod 86400).emod 3600).ediv 60

/-- `Date.getDay()` (0 = Sunday .. 6 = Saturday); the epoch day is a
Thursday, as for the JS epoch. -/
def weekdayOfInstant (t : Int) : Int := (dayIndexOf t + 4).emod 7

/-- `AlarmMode` from src/types/index.ts. -/
inductive AlarmMode where
  | STANDARD
  | TINY_BUTTON
  | QUIZ
  | CAPTCHA
  | QR_CODE
deriving DecidableEq

/-- The persisted `Alarm` interface from src/types/index.ts.  Optional
interface properties are `Option`s defaulting to `none`. -/
structure Alarm where
  id : String
  time : String
  label : String
  isActive : Bool
  mode : AlarmMode
  days : List Int
  sound : String
  notificationId : Option String := none
  qrCodeId : Option String := none
  exactHours : Option Int := none
  exactMinutes : Option Int := none
  scheduledTime : Option Int := none
  lastTriggered : Option Int := none
deriving DecidableEq

/-- The inline time-string parsing shared by `checkForAlarms` (lines
204-216) and `scheduleAlarmNotification` (lines 405-417) of
alarmService.ts: split on a space into `time` and `period`, split `time`
on a colon, `parseInt` both parts, convert to 24-hour form.  Returns the
pair (hours, minutes), a component being `none` when the JS value would
be `NaN`. -/
def parseAlarmTime (timeText : String) : Option Int × Option Int :=
  let parts := jsSplit ' ' timeText
  let time := parts.headD ""
  let period := parts[1]?
  let timeParts := jsSplit ':' time
  let hoursStr := timeParts.headD ""
  let minutesStr := timeParts[1]?
  let hours0 := jsParseIntStr hoursStr
  let minutes := jsParseInt minutesStr
  let hours :=
    if period == some "PM" && jsLt hours0 12 then hours0.map (· + 12)
    else if period == some "AM" && jsEqI hours0 12 then some 0
    else hours0
  (hours, minutes)

/-- Lines 218-225 of `checkForAlarms`: the alarm can fire only when its
parsed hours and minutes both strictly equal the current clock's hours
and minutes. -/
def timeMatches (now : Int) (alarm : Alarm) : Bool :=
  let hm := parseAlarmTime alarm.time
  jsEqI hm.1 (hourOfInstant now) && jsEqI hm.2 (minuteOfInstant now)

/-- Line 230 of `checkForAlarms`: no days selected (one-time alarm) or
today among the selected days. -/
def dayMatches (now : Int) (alarm : Alarm) : Bool :=
  alarm.days.length == 0 || alarm.days.contains (weekdayOfInstant now)

/-- An alarm the evaluator triggers at `now`: both nested guards of
lines 225 and 230 of `checkForAlarms`. -/
def alarmDue (now : Int) (alarm : Alarm) : Bool :=
  timeMatches now alarm && dayMatches now alarm

/-- Ambient state an evaluation pass reads: the clock, and whether the
platform delivers the notification of a given alarm id (failure of
`Notifications.scheduleNotificationAsync` is caught inside
`triggerAlarmNotification`, which logs and returns null). -/
structure Env where
  now : Int
  deliverOk : String → Bool

/-- Observable outcome of an evaluation pass: the storage afterwards, the
alarms for which delivery was attempted resp. succeeded, every whole-list
storage write performed during the pass, and the boolean that
`checkForAlarms` returns. -/
structure PassState where
  store : Option (List Alarm)
  attempted : List Alarm
  delivered : List Alarm
  writes : List (List Alarm)
  triggered : Bool

/-- The per-record update inside `deactivateOneTimeAlarm` (lines
259-264): the record with the fired alarm's id and no repeat days
becomes inactive; every other record is returned unchanged. -/
def deactMap (fired a : Alarm) : Alarm :=
  if a.id == fired.id && a.days.length == 0 then { a with isActive := false } else a

/-- `deactivateOneTimeAlarm` (lines 252-271): re-read storage, map the
matching one-time record to inactive, write the list back.  Returns the
new storage and the write performed (`none` when storage was absent and
the function returned early without writing). -/
def deactivateOneTimeAlarm (store : Option (List Alarm)) (alarm : Alarm) :
    Option (List Alarm) × Option (List Alarm) :=
  match store with
  | none => (none, none)
  | some alarms =>
      let updatedAlarms := alarms.map (deactMap alarm)
      (some updatedAlarms, some updatedAlarms)

/-- Body of the `for (const alarm of activeAlarms)` loop of
`checkForAlarms` (lines 203-242), threading the observable pass state:
on a time and day match the notification is triggered (its result is
discarded by the caller), `alarmTriggered` is set, and a one-time alarm
is deactivated through storage. -/
def processAlarm (env : Env) (s : PassState) (alarm : Alarm) : PassState :=
  if timeMatches env.now alarm then
    if dayMatches env.now alarm then
      let s1 : PassState :=
        { s with
          attempted := s.attempted ++ [alarm]
          delivered := s.delivered ++ (if env.deliverOk alarm.id then [alarm] else [])
          triggered := true }
      if alarm.days.length == 0 then
        let d := deactivateOneTimeAlarm s1.store alarm
        { s1 with
          store := d.1
          writes := s1.writes ++ (match d.2 with | some w => [w] | none => []) }
      else s1
    else s
  else s

/-- `checkForAlarms` (lines 192-249): read storage (absent key returns
false at once), filter the active alarms, run the loop over them.
Storage parsing is the identity in the model. -/
def checkForAlarms (env : Env) (store : Option (List Alarm)) : PassState :=
  match store with
  | none =>
      { store := none, attempted := [], delivered := [], writes := [], triggered := false }
  | some alarms =>
      let activeAlarms := alarms.filter (fun alarm => alarm.isActive)
      activeAlarms.foldl (processAlarm env)
        { store := some alarms, attempted := [], delivered := [], writes := [],
          triggered := false }

/-- The active alarms of a stored list that are due at `env.now`, in
store order: exactly the alarms the pass fires. -/
def dueActive (env : Env) (st : List Alarm) : List Alarm :=
  (st.filter (fun a => a.isActive)).filter (alarmDue env.now)

/-- The fired alarms of a pass that are one-time (no repeat days): the
ones for which `deactivateOneTimeAlarm` runs, in order. -/
def firedOneTime (env : Env) (st : List Alarm) : List Alarm :=
  (dueActive env st).filter (fun a => a.days.length == 0)

/-- Composite effect on one record of the deactivations performed for
the fired one-time alarms `F`, in order. -/
def applyFired (F : List Alarm) (a : Alarm) : Alarm :=
  F.foldl (fun x b => deactMap b x) a

/-- `updateAlarmInStorage` (lines 506-522): read storage (absent key
becomes the empty list), replace the record with the matching id, write
the list back.  Returns the written list. -/
def updateAlarmInStorage (updatedAlarm : Alarm) (store : Option (List Alarm)) :
    List Alarm :=
  (store.getD []).map (fun alarm => if alarm.id == updatedAlarm.id then updatedAlarm else alarm)

/-- Iterated evaluation passes: the storage left after running
`checkForAlarms` once per environment in the list. -/
def runPasses : List Env → Option (List Alarm) → Option (List Alarm)
  | [], st => st
  | e :: es, st => runPasses es (checkForAlarms e st).store

/-- All alarms for which any of the iterated passes attempted delivery. -/
def passesAttempt : List Env → Option (List Alarm) → List Alarm
  | [], _ => []
  | e :: es, st =>
      (checkForAlarms e st).attempted ++ passesAttempt es (checkForAlarms e st).store

/-- Today (the day of `now`) at hour `h` and minute `m` with seconds and
milliseconds zeroed: the value of `alarmDate` after lines 421-425 (each
`set` call normalises, so the result is linear in `h` and `m`). -/
def todayAt (now h m : Int) : Int := dayIndexOf now * 86400 + h * 3600 + m * 60

/-- The `for (let i = 1; i <= 7; i++)` search of lines 439-446 of
`scheduleAlarmNotification`: the smallest offset `1 ≤ i ≤ 7` such that
`(currentDay + i) % 7` is a selected day; `none` when the loop leaves
`nextDayOffset` at -1. -/
def nextDayOffset (days : List Int) (currentDay : Int) : Option Int :=
  (List.range 7).findSome? (fun j =>
    let i : Int := (j : Int) + 1
    if days.contains ((currentDay + i).emod 7) then some i else none)

/-- The `alarmDate` computed by `scheduleAlarmNotification` (lines
404-453): parse the time, build today's candidate, bump a past candidate
to tomorrow (lines 427-430), then the recurring-day adjustment (lines
432-453).  `none` models the invalid `Date` arising from `NaN` hours or
minutes. -/
def scheduleAlarmDate (now : Int) (alarm : Alarm) : Option Int :=
  match parseAlarmTime alarm.time with
  | (some hours, some minutes) =>
      let d0 := todayAt now hours minutes
      let d1 := if d0 ≤ now then d0 + 86400 else d0
      if 0 < alarm.days.length then
        let currentDay := weekdayOfInstant now
        if !(alarm.days.contains currentDay) || decide (d1 ≤ now) then
          match nextDayOffset alarm.days currentDay with
          | some offset => some ((dayIndexOf now + offset) * 86400 + d1.emod 86400)
          | none => some d1
        else some d1
      else some d1
  | _ => none

/-- Rendering of an hour, minute and period in the `H:MM AM|PM` display
format in which alarm times are stored. -/
def renderTime (h m : Nat) (period : String) : String :=
  toString h ++ ":" ++ (if m < 10 then "0" ++ toString m else toString m) ++ " " ++ period

/-- Modelled from the spec: the conformance predicate of the format
"`H:MM AM|PM` (H is 1-12)" of the `resolveTime` contract, used to compare
the spec's `ParseError` requirement with the code's actual parsing. -/
def specTimeFormatOK (s : String) : Bool :=
  match jsSplit ' ' s with
  | [hm, p] =>
      (p == "AM" || p == "PM") &&
      (match jsSplit ':' hm with
       | [hs, ms] =>
           decide (0 < hs.length) && hs.toList.all Char.isDigit &&
           (ms.length == 2) && ms.toList.all Char.isDigit &&
           (match jsParseIntStr hs, jsParseIntStr ms with
            | some hv, some mv => decide (1 ≤ hv) && decide (hv ≤ 12) && decide (mv ≤ 59)
            | _, _ => false)
       | _ => false)
  | _ => false

/-- A stored-list property used for claims about later passes: every
record carrying the given id is inactive. -/
def idAllInactive (i : String) (st : Option (List Alarm)) : Prop :=
  ∀ l, st = some l → ∀ b ∈ l, b.id = i → b.isActive = false

/-- Fixture: a one-time alarm ringing at 7:30 AM. -/
def demoOneTime : Alarm :=
  { id := "one", time := "7:30 AM", label := "wake", isActive := true,
    mode := AlarmMode.STANDARD, days := [], sound := "default" }

/-- Fixture: a recurring alarm ringing at 7:30 AM on Thursdays (the
weekday of instant 27000 in the model). -/
def demoRecurring : Alarm :=
  { id := "rec", time := "7:30 AM", label := "daily", isActive := true,
    mode := AlarmMode.STANDARD, days := [4], sound := "default" }

/-- Fixture: a second one-time alarm at the same time of day. -/
def demoOneTimeB : Alarm := { demoOneTime with id := "two", label := "wake2" }

/-- Fixture: a weekly alarm repeating only on Mondays (day 1) at 7:30 AM. -/
def demoMonday : Alarm :=
  { id := "mon", time := "7:30 AM", label := "week", isActive := true,
    mode := AlarmMode.STANDARD, days := [1], sound := "default" }

/-- Fixture: the clock at 7:30:00 AM on the epoch day, deliveries working. -/
def demoEnv : Env := { now := 27000, deliverOk := fun _ => true }

/-- Fixture: the clock at midnight on the epoch day, deliveries working. -/
def demoEnvMidnight : Env := { now := 0, deliverOk := fun _ => true }

/-- Fixture: clock at 7:30:00 AM on the epoch day with notification
delivery failing for every alarm. -/
def demoEnvFail : Env := { now := 27000, deliverOk := fun _ => false }

theorem applyFired_nil (a : Alarm) : applyFired [] a = a := rfl

theorem applyFired_cons (b : Alarm) (F : List Alarm) (a : Alarm) :
    applyFired (b :: F) a = applyFired F (deactMap b a) := rfl

theorem processAlarm_not_due {env : Env} {s : PassState} {alarm : Alarm}
    (h : alarmDue env.now alarm = false) : processAlarm env s alarm = s := by
  unfold processAlarm
  cases htm : timeMatches env.now alarm with
  | false => simp
  | true =>
      cases hdm : dayMatches env.now alarm with
      | false => simp
      | true =>
          exfalso
          unfold alarmDue at h
          rw [htm, hdm] at h
          simp at h

theorem processAlarm_due_recurring {env : Env} {s : PassState} {alarm : Alarm}
    (htm : timeMatches env.now alarm = true) (hdm : dayMatches env.now alarm = true)
    (hd : (alarm.days.length == 0) = false) :
    processAlarm env s alarm =
      { s with
        attempted := s.attempted ++ [alarm]
        delivered := s.delivered ++ (if env.deliverOk alarm.id then [alarm] else [])
        triggered := true } := by
  unfold processAlarm
  rw [htm, hdm, hd]
  simp

theorem processAlarm_due_oneshot {env : Env} {s : PassState} {alarm : Alarm}
    {cur : List Alarm}
    (htm : timeMatches env.now alarm = true) (hdm : dayMatches env.now alarm = true)
    (hd : (alarm.days.length == 0) = true) (hst : s.store = some cur) :
    processAlarm env s alarm =
      { store := some (cur.map (deactMap alarm)),
        attempted := s.attempted ++ [alarm],
        delivered := s.delivered ++ (if env.deliverOk alarm.id then [alarm] else []),
        writes := s.writes ++ [cur.map (deactMap alarm)],
        triggered := true } := by
  unfold processAlarm
  rw [htm, hdm, hd]
  simp [deactivateOneTimeAlarm, hst]

theorem foldl_processAlarm_spec (env : Env) (l : List Alarm) :
    ∀ (s : PassState) (cur : List Alarm), s.store = some cur →
      (l.foldl (processAlarm env) s).attempted
          = s.attempted ++ l.filter (alarmDue env.now) ∧
      (l.foldl (processAlarm env) s).delivered
          = s.delivered
              ++ (l.filter (alarmDue env.now)).filter (fun a => env.deliverOk a.id) ∧
      (l.foldl (processAlarm env) s).triggered
          = (s.triggered || !(l.filter (alarmDue env.now)).isEmpty) ∧
      (l.foldl (processAlarm env) s).writes.length
          = s.writes.length
              + ((l.filter (alarmDue env.now)).filter (fun a => a.days.length == 0)).length ∧
      (l.foldl (processAlarm env) s).store
          = some (cur.map (applyFired
              ((l.filter (alarmDue env.now)).filter (fun a => a.days.length == 0)))) := by
  induction l with
  | nil =>
      intro s cur hst
      simp only [List.filter_nil, List.foldl_nil]
      rw [show applyFired ([] : List Alarm) = id from rfl]
      simp [hst]
  | cons a t ih =>
      intro s cur hst
      cases hdue : alarmDue env.now a with
      | false =>
          rw [List.foldl_cons, processAlarm_not_due hdue]
          have h := ih s cur hst
          simpa [List.filter_cons, hdue] using h
      | true =>
          have hb := hdue
          unfold alarmDue at hb
          rw [Bool.and_eq_true] at hb
          obtain ⟨htm, hdm⟩ := hb
          cases hd : (a.days.length == 0) with
          | false =>
              rw [List.foldl_cons, processAlarm_due_recurring htm hdm hd]
              have h := ih
                { s with
                  attempted := s.attempted ++ [a]
                  delivered := s.delivered ++ (if env.deliverOk a.id then [a] else [])
                  triggered := true } cur hst
              obtain ⟨h1, h2, h3, h4, h5⟩ := h
              refine ⟨?_, ?_, ?_, ?_, ?_⟩
              · rw [h1]; simp [List.filter_cons, hdue]
              · rw [h2]
                by_cases hdel : env.deliverOk a.id = true
                · simp [List.filter_cons, hdue, hdel]
                · simp [List.filter_cons, hdue, hdel]
              · rw [h3]; simp [List.filter_cons, hdue]
              · rw [h4]; simp [List.filter_cons, hdue, hd]
              · rw [h5]; simp [List.filter_cons, hdue, hd]
          | true =>
              rw [List.foldl_cons, processAlarm_due_oneshot htm hdm hd hst]
              have h := ih
                { store := some (cur.map (deactMap a)),
                  attempted := s.attempted ++ [a],
                  delivered := s.delivered ++ (if env.deliverOk a.id then [a] else []),
                  writes := s.writes ++ [cur.map (deactMap a)],
                  triggered := true } (cur.map (deactMap a)) rfl
              obtain ⟨h1, h2, h3, h4, h5⟩ := h
              refine ⟨?_, ?_, ?_, ?_, ?_⟩
              · rw [h1]; simp [List.filter_cons, hdue]
              · rw [h2]
                by_cases hdel : env.deliverOk a.id = true
                · simp [List.filter_cons, hdue, hdel]
                · simp [List.filter_cons, hdue, hdel]
              · rw [h3]; simp [List.filter_cons, hdue]
              · rw [h4]; simp [List.filter_cons, hdue, hd]; omega
              · rw [h5]
                simp only [List.filter_cons, hdue, hd, if_true, List.map_map]
                simp [Function.comp, applyFired_cons]

theorem checkForAlarms_attempted (env : Env) (st : List Alarm) :
    (checkForAlarms env (some st)).attempted = dueActive env st := by
  have h := foldl_processAlarm_spec env (st.filter (fun a => a.isActive))
    { store := some st, attempted := [], delivered := [], writes := [], triggered := false }
    st rfl
  unfold checkForAlarms dueActive
  simpa using h.1

theorem checkForAlarms_delivered (env : Env) (st : List Alarm) :
    (checkForAlarms env (some st)).delivered
      = (dueActive env st).filter (fun a => env.deliverOk a.id) := by
  have h := foldl_processAlarm_spec env (st.filter (fun a => a.isActive))
    { store := some st, attempted := [], delivered := [], writes := [], triggered := false }
    st rfl
  unfold checkForAlarms dueActive
  simpa using h.2.1

theorem checkForAlarms_triggered (env : Env) (st : List Alarm) :
    (checkForAlarms env (some st)).triggered = !(dueActive env st).isEmpty := by
  have h := foldl_processAlarm_spec env (st.filter (fun a => a.isActive))
    { store := some st, attempted := [], delivered := [], writes := [], triggered := false }
    st rfl
  unfold checkForAlarms dueActive
  simpa using h.2.2.1

theorem checkForAlarms_writes (env : Env) (st : List Alarm) :
    (checkForAlarms env (some st)).writes.length = (firedOneTime env st).length := by
  have h := foldl_processAlarm_spec env (st.filter (fun a => a.isActive))
    { store := some st, attempted := [], delivered := [], writes := [], triggered := false }
    st rfl
  unfold checkForAlarms firedOneTime dueActive
  simpa using h.2.2.2.1

theorem checkForAlarms_store (env : Env) (st : List Alarm) :
    (checkForAlarms env (some st)).store
      = some (st.map (applyFired (firedOneTime env st))) := by
  have h := foldl_processAlarm_spec env (st.filter (fun a => a.isActive))
    { store := some st, attempted := [], delivered := [], writes := [], triggered := false }
    st rfl
  unfold checkForAlarms firedOneTime dueActive
  simpa using h.2.2.2.2

theorem deactMap_of_days_ne {b a : Alarm} (h : (a.days.length == 0) = false) :
    deactMap b a = a := by
  unfold deactMap
  simp [h]

theorem deactMap_inactive {b a : Alarm} (h : a.isActive = false) : deactMap b a = a := by
  unfold deactMap
  split
  · cases a
    simp_all
  · rfl

theorem deactMap_cases (b a : Alarm) :
    deactMap b a = a ∨ deactMap b a = { a with isActive := false } := by
  unfold deactMap
  split
  · right; rfl
  · left; rfl

theorem applyFired_days_ne {F : List Alarm} {a : Alarm}
    (h : (a.days.length == 0) = false) : applyFired F a = a := by
  induction F with
  | nil => rfl
  | cons b F ih =>
      rw [applyFired_cons, deactMap_of_days_ne h]
      exact ih

theorem applyFired_inactive {F : List Alarm} {a : Alarm}
    (h : a.isActive = false) : applyFired F a = a := by
  induction F with
  | nil => rfl
  | cons b F ih =>
      rw [applyFired_cons, deactMap_inactive h]
      exact ih

theorem applyFired_cases (F : List Alarm) : ∀ a : Alarm,
    applyFired F a = a ∨ applyFired F a = { a with isActive := false } := by
  induction F with
  | nil => intro a; left; rfl
  | cons b F ih =>
      intro a
      rw [applyFired_cons]
      rcases deactMap_cases b a with h | h
      · rw [h]; exact ih a
      · rw [h]
        rcases ih { a with isActive := false } with h2 | h2
        · right; exact h2
        · right; rw [h2]

theorem applyFired_id (F : List Alarm) (a : Alarm) : (applyFired F a).id = a.id := by
  rcases applyFired_cases F a with h | h <;> rw [h]

theorem applyFired_active_eq {F : List Alarm} {a : Alarm}
    (h : (applyFired F a).isActive = true) : applyFired F a = a := by
  rcases applyFired_cases F a with h2 | h2
  · exact h2
  · rw [h2] at h
    simp at h

theorem applyFired_mem_hit {F : List Alarm} {a : Alarm}
    (hdays : (a.days.length == 0) = true) (hmem : a ∈ F) :
    applyFired F a = { a with isActive := false } := by
  induction F with
  | nil => cases hmem
  | cons b F ih =>
      rw [applyFired_cons]
      rcases List.mem_cons.mp hmem with h | h
      · subst h
        have hstep : deactMap a a = { a with isActive := false } := by
          unfold deactMap
          simp [hdays]
        rw [hstep]
        exact applyFired_inactive rfl
      · rcases deactMap_cases b a with h2 | h2
        · rw [h2]; exact ih h
        · rw [h2]; exact applyFired_inactive rfl

theorem nodup_id_eq {st : List Alarm} (hnd : (st.map (fun a => a.id)).Nodup)
    {x y : Alarm} (hx : x ∈ st) (hy : y ∈ st) (hid : x.id = y.id) : x = y := by
  induction st with
  | nil => cases hx
  | cons c t ih =>
      rw [List.map_cons, List.nodup_cons] at hnd
      obtain ⟨hc, ht⟩ := hnd
      rcases List.mem_cons.mp hx with hx1 | hx1 <;> rcases List.mem_cons.mp hy with hy1 | hy1
      · rw [hx1, hy1]
      · subst hx1
        exact absurd (by rw [hid]; exact List.mem_map_of_mem (fun a => a.id) hy1) hc
      · subst hy1
        exact absurd (by rw [← hid]; exact List.mem_map_of_mem (fun a => a.id) hx1) hc
      · exact ih ht hx1 hy1

theorem attempted_mem_active {env : Env} {st : List Alarm} {b : Alarm}
    (h : b ∈ (checkForAlarms env (some st)).attempted) :
    b ∈ st ∧ b.isActive = true ∧ alarmDue env.now b = true := by
  rw [checkForAlarms_attempted] at h
  unfold dueActive at h
  rw [List.mem_filter] at h
  obtain ⟨h1, h2⟩ := h
  rw [List.mem_filter] at h1
  exact ⟨h1.1, h1.2, h2⟩

theorem pass_keeps_idAllInactive {i : String} {env : Env} {st : Option (List Alarm)}
    (h : idAllInactive i st) :
    idAllInactive i (checkForAlarms env st).store ∧
      ∀ b ∈ (checkForAlarms env st).attempted, b.id ≠ i := by
  cases st with
  | none =>
      constructor
      · intro l hl
        simp [checkForAlarms] at hl
      · intro b hb
        simp [checkForAlarms] at hb
  | some l0 =>
      constructor
      · intro l hl
        rw [checkForAlarms_store] at hl
        injection hl with hl
        subst hl
        intro b hb hid
        rw [List.mem_map] at hb
        obtain ⟨y, hy, hby⟩ := hb
        subst hby
        have hyid : y.id = i := by
          rw [← applyFired_id (firedOneTime env l0) y]
          exact hid
        have hyin : y.isActive = false := h l0 rfl y hy hyid
        rw [applyFired_inactive hyin]
        exact hyin
      · intro b hb hbid
        obtain ⟨hmem, hact, _⟩ := attempted_mem_active hb
        have hfalse := h l0 rfl b hmem hbid
        rw [hact] at hfalse
        cases hfalse

theorem passes_keep_idAllInactive {i : String} :
    ∀ (envs : List Env) (st : Option (List Alarm)), idAllInactive i st →
      (∀ b ∈ passesAttempt envs st, b.id ≠ i) ∧ idAllInactive i (runPasses envs st) := by
  intro envs
  induction envs with
  | nil =>
      intro st h
      constructor
      · intro b hb
        simp [passesAttempt] at hb
      · exact h
  | cons e es ih =>
      intro st h
      obtain ⟨h1, h2⟩ := @pass_keeps_idAllInactive i e st h
      obtain ⟨h3, h4⟩ := ih _ h1
      refine ⟨?_, h4⟩
      intro b hb
      unfold passesAttempt at hb
      rcases List.mem_append.mp hb with hb1 | hb1
      · exact h2 b hb1
      · exact h3 b hb1

theorem delivered_subset_attempted {env : Env} {st : Option (List Alarm)} {b : Alarm}
    (h : b ∈ (checkForAlarms env st).delivered) :
    b ∈ (checkForAlarms env st).attempted := by
  cases st with
  | none => simp [checkForAlarms] at h
  | some l =>
      rw [checkForAlarms_delivered] at h
      rw [checkForAlarms_attempted]
      exact List.mem_of_mem_filter h

theorem second_pass_never_fires_id {env : Env} {st : List Alarm} {a : Alarm}
    (hnd : (st.map (fun x => x.id)).Nodup) (ha : a ∈ st) (hdays : a.days = []) :
    ∀ b ∈ (checkForAlarms env (checkForAlarms env (some st)).store).attempted,
      b.id ≠ a.id := by
  intro b hb hbid
  rw [checkForAlarms_store] at hb
  obtain ⟨hmemL, hact, hdue⟩ := attempted_mem_active hb
  rw [List.mem_map] at hmemL
  obtain ⟨y, hy, hby⟩ := hmemL
  have hyid : y.id = a.id := by
    rw [← applyFired_id (firedOneTime env st) y, hby]
    exact hbid
  have hya : y = a := nodup_id_eq hnd hy ha hyid
  have hba : b = applyFired (firedOneTime env st) a := by rw [← hby, hya]
  have hbactive : (applyFired (firedOneTime env st) a).isActive = true := by
    rw [← hba]
    exact hact
  have hbeq : applyFired (firedOneTime env st) a = a := applyFired_active_eq hbactive
  have haact : a.isActive = true := by
    rw [← hbeq]
    exact hbactive
  have hadue : alarmDue env.now a = true := by
    rw [hba, hbeq] at hdue
    exact hdue
  have hmemG : a ∈ firedOneTime env st := by
    unfold firedOneTime dueActive
    rw [List.mem_filter]
    constructor
    · rw [List.mem_filter]
      constructor
      · rw [List.mem_filter]
        exact ⟨ha, haact⟩
      · exact hadue
    · simp [hdays]
  have hhit : applyFired (firedOneTime env st) a = { a with isActive := false } :=
    applyFired_mem_hit (by simp [hdays]) hmemG
  rw [hbeq] at hhit
  have hfalse : a.isActive = false := by
    have h2 := congrArg Alarm.isActive hhit
    simpa using h2
  rw [haact] at hfalse
  cases hfalse

/-- C1, counterexample: for a recurring alarm due at the current minute,
running `checkForAlarms` a second time with the same current time
delivers a notification for the very same due alarm again — the claimed
`lastTriggeredAt` deduplication does not exist in the code. -/
theorem c1_counterexample :
    (checkForAlarms demoEnv (some [demoRecurring])).delivered = [demoRecurring] ∧
    (checkForAlarms demoEnv
        ((checkForAlarms demoEnv (some [demoRecurring])).store)).delivered
      = [demoRecurring] := by
  decide

/-- C1, amended: calling the trigger evaluation twice with the same
current time fires each due ONE-TIME alarm (empty `days`) at most once —
the deduplication is carried by the `isActive` flag that
`deactivateOneTimeAlarm` clears, not by `lastTriggeredAt`: after the
first pass, the second pass neither attempts nor delivers a notification
for any record carrying that alarm's id.  (A due recurring alarm is fired
again by the second invocation: see the counterexample.) -/
theorem c1_amended (env : Env) (st : List Alarm) (a : Alarm)
    (hnd : (st.map (fun x => x.id)).Nodup) (ha : a ∈ st) (hdays : a.days = []) :
    (∀ b ∈ (checkForAlarms env (checkForAlarms env (some st)).store).attempted,
        b.id ≠ a.id) ∧
    (∀ b ∈ (checkForAlarms env (checkForAlarms env (some st)).store).delivered,
        b.id ≠ a.id) := by
  have hatt := @second_pass_never_fires_id env st a hnd ha hdays
  exact ⟨hatt, fun b hb => hatt b (delivered_subset_attempted hb)⟩

theorem c1_witness :
    (([demoOneTime].map (fun x => x.id)).Nodup ∧ demoOneTime ∈ [demoOneTime]
        ∧ demoOneTime.days = []) ∧
    ((∀ b ∈ (checkForAlarms demoEnv
          (checkForAlarms demoEnv (some [demoOneTime])).store).attempted,
        b.id ≠ demoOneTime.id) ∧
     (∀ b ∈ (checkForAlarms demoEnv
          (checkForAlarms demoEnv (some [demoOneTime])).store).delivered,
        b.id ≠ demoOneTime.id)) :=
  ⟨⟨by decide, by decide, rfl⟩,
    c1_amended demoEnv [demoOneTime] demoOneTime (by decide) (by decide) rfl⟩

/-- C2 (confirmed): the trigger evaluation delivers (indeed even
attempts) no notification for an alarm whose parsed minute does not
strictly equal the current clock minute — matching in `checkForAlarms`
is exact-minute, with no tolerance window. -/
theorem c2_exact_minute (env : Env) (st : Option (List Alarm)) (a : Alarm)
    (h : jsEqI (parseAlarmTime a.time).2 (minuteOfInstant env.now) = false) :
    a ∉ (checkForAlarms env st).delivered ∧ a ∉ (checkForAlarms env st).attempted := by
  have hatt : a ∉ (checkForAlarms env st).attempted := by
    intro hmem
    cases st with
    | none => simp [checkForAlarms] at hmem
    | some l =>
        obtain ⟨_, _, hdue⟩ := attempted_mem_active hmem
        simp [alarmDue, timeMatches, h] at hdue
  exact ⟨fun hdel => hatt (delivered_subset_attempted hdel), hatt⟩

theorem c2_witness :
    jsEqI (parseAlarmTime demoOneTime.time).2 (minuteOfInstant demoEnvMidnight.now)
        = false ∧
    (demoOneTime ∉ (checkForAlarms demoEnvMidnight (some [demoOneTime])).delivered ∧
     demoOneTime ∉ (checkForAlarms demoEnvMidnight (some [demoOneTime])).attempted) :=
  ⟨by decide,
    c2_exact_minute demoEnvMidnight (some [demoOneTime]) demoOneTime (by decide)⟩

theorem mem_firedOneTime {env : Env} {st : List Alarm} {a : Alarm}
    (ha : a ∈ st) (hdays : a.days = []) (hact : a.isActive = true)
    (hdue : alarmDue env.now a = true) : a ∈ firedOneTime env st := by
  unfold firedOneTime dueActive
  rw [List.mem_filter]
  constructor
  · rw [List.mem_filter]
    constructor
    · rw [List.mem_filter]
      exact ⟨ha, hact⟩
    · exact hdue
  · simp [hdays]

theorem deactMap_of_id_ne {b x : Alarm} (h : x.id ≠ b.id) : deactMap b x = x := by
  unfold deactMap
  have hbeq : (x.id == b.id) = false := beq_eq_false_iff_ne.mpr h
  simp [hbeq]

/-- C4 (confirmed): a one-time alarm (empty `days`) that fires is
persisted as inactive by that pass, the pass performs exactly one
deactivation write per fired one-time alarm, and no later sequence of
evaluation passes over the resulting storage ever attempts that alarm's
id again — it is never refired without explicit reactivation. -/
theorem c4_oneshot_deactivation (env : Env) (st : List Alarm) (a : Alarm)
    (hnd : (st.map (fun x => x.id)).Nodup) (ha : a ∈ st) (hdays : a.days = [])
    (hact : a.isActive = true) (hdue : alarmDue env.now a = true) :
    (∃ l, (checkForAlarms env (some st)).store = some l ∧
        { a with isActive := false } ∈ l ∧
        ∀ b ∈ l, b.id = a.id → b = { a with isActive := false }) ∧
    (checkForAlarms env (some st)).writes.length = (firedOneTime env st).length ∧
    (∀ envs : List Env,
        ∀ b ∈ passesAttempt envs (checkForAlarms env (some st)).store, b.id ≠ a.id) := by
  have hstore := checkForAlarms_store env st
  have hmemG : a ∈ firedOneTime env st := mem_firedOneTime ha hdays hact hdue
  have hhit : applyFired (firedOneTime env st) a = { a with isActive := false } :=
    applyFired_mem_hit (by simp [hdays]) hmemG
  have hall : ∀ b ∈ st.map (applyFired (firedOneTime env st)),
      b.id = a.id → b = { a with isActive := false } := by
    intro b hb hbid
    rw [List.mem_map] at hb
    obtain ⟨y, hy, hby⟩ := hb
    have hyid : y.id = a.id := by
      rw [← applyFired_id (firedOneTime env st) y, hby]
      exact hbid
    have hya : y = a := nodup_id_eq hnd hy ha hyid
    rw [← hby, hya, hhit]
  refine ⟨⟨st.map (applyFired (firedOneTime env st)), hstore, ?_, hall⟩,
    checkForAlarms_writes env st, ?_⟩
  · rw [← hhit]
    exact List.mem_map_of_mem (applyFired (firedOneTime env st)) ha
  · intro envs
    have hinv : idAllInactive a.id (checkForAlarms env (some st)).store := by
      intro l0 hl0 b hb hbid
      rw [hstore] at hl0
      injection hl0 with hl0
      subst hl0
      rw [hall b hb hbid]
    exact (passes_keep_idAllInactive envs _ hinv).1

theorem c4_witness :
    (([demoOneTime].map (fun x => x.id)).Nodup ∧ demoOneTime ∈ [demoOneTime]
      ∧ demoOneTime.days = [] ∧ demoOneTime.isActive = true
      ∧ alarmDue demoEnv.now demoOneTime = true) ∧
    (checkForAlarms demoEnv (some [demoOneTime])).writes.length
      = (firedOneTime demoEnv [demoOneTime]).length :=
  ⟨⟨by decide, by decide, rfl, rfl, by decide⟩,
    (c4_oneshot_deactivation demoEnv [demoOneTime] demoOneTime
      (by decide) (by decide) rfl rfl (by decide)).2.1⟩

/-- C5, counterexample: two one-time alarms due at the same minute both
fire in one pass and in store order, but their post-fire state is
persisted by TWO separate whole-list writes, not by one combined
write. -/
theorem c5_counterexample :
    (checkForAlarms demoEnv (some [demoOneTime, demoOneTimeB])).attempted
      = [demoOneTime, demoOneTimeB] ∧
    (checkForAlarms demoEnv (some [demoOneTime, demoOneTimeB])).writes.length = 2 := by
  decide

/-- C5, amended: in a single evaluation pass every due alarm fires, in
stored-list order, with no early return — the attempted and delivered
lists are exactly the due actives in store order — but the post-fire
state is NOT persisted in one combined write: the pass performs one
separate whole-list write per fired one-time alarm and none for fired
recurring alarms. -/
theorem c5_amended (env : Env) (st : List Alarm) :
    (checkForAlarms env (some st)).attempted = dueActive env st ∧
    (checkForAlarms env (some st)).delivered
      = (dueActive env st).filter (fun a => env.deliverOk a.id) ∧
    (checkForAlarms env (some st)).writes.length = (firedOneTime env st).length :=
  ⟨checkForAlarms_attempted env st, checkForAlarms_delivered env st,
    checkForAlarms_writes env st⟩

/-- C8, counterexample: a due one-time alarm whose notification delivery
fails is deactivated anyway, and the pass still reports that an alarm
triggered — the alarm is not left eligible for a retry on the next tick,
contrary to the claim. -/
theorem c8_counterexample :
    (checkForAlarms demoEnvFail (some [demoOneTime])).delivered = [] ∧
    (checkForAlarms demoEnvFail (some [demoOneTime])).store
      = some [{ demoOneTime with isActive := false }] ∧
    (checkForAlarms demoEnvFail (some [demoOneTime])).triggered = true := by
  decide

/-- C8, amended: a delivery failure never aborts the pass — which alarms
are attempted, and in which order, is independent of delivery outcomes
(the failure is caught inside `triggerAlarmNotification`) — but the
failure is otherwise ignored: a due one-time alarm whose delivery failed
is still deactivated in storage, so it is NOT retried on a later tick;
nothing records the failure. -/
theorem c8_amended (env : Env) (st : List Alarm) :
    (checkForAlarms env (some st)).attempted = dueActive env st ∧
    (∀ a, a ∈ st → a.days = [] → a.isActive = true → alarmDue env.now a = true →
      env.deliverOk a.id = false →
      a ∉ (checkForAlarms env (some st)).delivered ∧
      { a with isActive := false } ∈ ((checkForAlarms env (some st)).store.getD [])) := by
  refine ⟨checkForAlarms_attempted env st, ?_⟩
  intro a ha hdays hact hdue hfail
  constructor
  · intro hdel
    rw [checkForAlarms_delivered, List.mem_filter] at hdel
    have hp := hdel.2
    simp [hfail] at hp
  · rw [checkForAlarms_store]
    simp only [Option.getD_some]
    have hmemG : a ∈ firedOneTime env st := mem_firedOneTime ha hdays hact hdue
    have hhit := @applyFired_mem_hit (firedOneTime env st) a (by simp [hdays]) hmemG
    rw [← hhit]
    exact List.mem_map_of_mem (applyFired (firedOneTime env st)) ha

theorem c8_witness :
    (demoOneTime ∈ [demoOneTime, demoRecurring] ∧ demoOneTime.days = []
      ∧ demoOneTime.isActive = true ∧ alarmDue demoEnvFail.now demoOneTime = true
      ∧ demoEnvFail.deliverOk demoOneTime.id = false) ∧
    (demoOneTime
        ∉ (checkForAlarms demoEnvFail (some [demoOneTime, demoRecurring])).delivered ∧
      { demoOneTime with isActive := false }
        ∈ ((checkForAlarms demoEnvFail (some [demoOneTime, demoRecurring])).store.getD [])) :=
  ⟨⟨by decide, rfl, rfl, by decide, rfl⟩,
    (c8_amended demoEnvFail [demoOneTime, demoRecurring]).2 demoOneTime
      (by decide) rfl rfl (by decide) rfl⟩

/-- C9 (confirmed): an evaluation pass never changes any stored record
whose `days` set is non-empty — in particular firing a recurring alarm
never clears `isActive`; length, order and every field of such records
are preserved by the pass. -/
theorem c9_recurring_untouched (env : Env) (st : List Alarm) :
    ((checkForAlarms env (some st)).store.getD []).length = st.length ∧
    ∀ (i : Nat) (h1 : i < st.length)
      (h2 : i < ((checkForAlarms env (some st)).store.getD []).length),
      (st.get ⟨i, h1⟩).days ≠ [] →
      ((checkForAlarms env (some st)).store.getD []).get ⟨i, h2⟩ = st.get ⟨i, h1⟩ := by
  rw [checkForAlarms_store]
  simp only [Option.getD_some]
  constructor
  · simp
  · intro i h1 h2 hdays
    rw [List.get_eq_getElem, List.get_eq_getElem, List.getElem_map]
    exact applyFired_days_ne (by simp [beq_eq_false_iff_ne, List.length_eq_zero]; exact hdays)

theorem c9_witness :
    ([demoRecurring].get ⟨0, by decide⟩).days ≠ [] ∧
    ((checkForAlarms demoEnv (some [demoRecurring])).store.getD []).get ⟨0, by decide⟩
      = [demoRecurring].get ⟨0, by decide⟩ :=
  ⟨by decide,
    (c9_recurring_untouched demoEnv [demoRecurring]).2 0 (by decide) (by decide) (by decide)⟩

/-- C10 (confirmed): the single-alarm storage updates
(`updateAlarmInStorage`, and the write of `deactivateOneTimeAlarm`)
preserve list length and order, leave every record whose id differs
unchanged field-for-field, and never insert a record: when no stored
record carries the given id, the stored list is written back unchanged. -/
theorem c10_frame (u b : Alarm) (l : List Alarm) :
    (updateAlarmInStorage u (some l)).length = l.length ∧
    (∀ (i : Nat) (h1 : i < l.length) (h2 : i < (updateAlarmInStorage u (some l)).length),
        (l.get ⟨i, h1⟩).id ≠ u.id →
        (updateAlarmInStorage u (some l)).get ⟨i, h2⟩ = l.get ⟨i, h1⟩) ∧
    ((∀ x ∈ l, x.id ≠ u.id) → updateAlarmInStorage u (some l) = l) ∧
    (∃ l2, (deactivateOneTimeAlarm (some l) b).1 = some l2 ∧ l2.length = l.length ∧
        (∀ (i : Nat) (h1 : i < l.length) (h2 : i < l2.length),
            (l.get ⟨i, h1⟩).id ≠ b.id → l2.get ⟨i, h2⟩ = l.get ⟨i, h1⟩) ∧
        ((∀ x ∈ l, x.id ≠ b.id) → l2 = l)) := by
  refine ⟨by simp [updateAlarmInStorage], ?_, ?_, l.map (deactMap b), rfl, by simp, ?_, ?_⟩
  · intro i h1 h2 hid
    unfold updateAlarmInStorage
    rw [List.get_eq_getElem, List.get_eq_getElem]
    simp only [Option.getD_some, List.getElem_map]
    rw [if_neg]
    simp only [beq_iff_eq]
    intro hcontra
    exact hid (by rw [List.get_eq_getElem]; exact hcontra)
  · intro hnone
    unfold updateAlarmInStorage
    simp only [Option.getD_some]
    have hcong : ∀ x ∈ l, (if x.id == u.id then u else x) = x := by
      intro x hx
      rw [if_neg]
      simp only [beq_iff_eq]
      exact hnone x hx
    rw [List.map_congr_left hcong]
    exact List.map_id' l
  · intro i h1 h2 hid
    rw [List.get_eq_getElem, List.get_eq_getElem]
    simp only [List.getElem_map]
    exact deactMap_of_id_ne (by rw [List.get_eq_getElem] at hid; exact hid)
  · intro hnone
    have hcong : ∀ x ∈ l, deactMap b x = x := fun x hx => deactMap_of_id_ne (hnone x hx)
    rw [List.map_congr_left hcong]
    exact List.map_id' l

theorem c10_witness :
    ((([demoRecurring].get ⟨0, by decide⟩).id ≠ demoOneTime.id) ∧
      (updateAlarmInStorage demoOneTime (some [demoRecurring])).get ⟨0, by decide⟩
        = [demoRecurring].get ⟨0, by decide⟩) ∧
    updateAlarmInStorage demoOneTime (some [demoRecurring]) = [demoRecurring] :=
  ⟨⟨by decide,
      (c10_frame demoOneTime demoOneTime [demoRecurring]).2.1 0 (by decide) (by decide)
        (by decide)⟩,
    (c10_frame demoOneTime demoOneTime [demoRecurring]).2.2.1 (by decide)⟩

/-- C3, code bug: at Monday 08:00 (instant 374400; day 4 of the model is
a Monday) an alarm repeating only on Mondays whose 7:30 AM has already
passed is scheduled for instant 459000 — Tuesday 7:30 AM, a weekday NOT
in its `days` set and less than 7 days ahead.  The bump at line 428 has
already moved `alarmDate` past `now`, so the `alarmDate <= now` disjunct
at line 437 can never fire the next-matching-day search, contradicting
the comment right there ("If today is not in the selected days or the
time has passed").  The claim's second part does hold: with today
selected and the time still ahead (Monday 7:00, instant 370800) the
alarm is scheduled for today 7:30 (instant 372600). -/
theorem c3_bug_evaluation :
    weekdayOfInstant 374400 = 1 ∧
    scheduleAlarmDate 374400 demoMonday = some 459000 ∧
    weekdayOfInstant 459000 = 2 ∧
    demoMonday.days.contains (weekdayOfInstant 459000) = false ∧
    459000 < 374400 + 7 * 86400 ∧
    scheduleAlarmDate 370800 demoMonday = some 372600 := by
  decide

/-- C6 (confirmed): for an alarm with an empty `days` set, the computed
`alarmDate` is today at the alarm's hour and minute when the current time
is strictly before that instant, and tomorrow at the same hour and
minute when the current time is at or after it. -/
theorem c6_empty_days_next_occurrence (now : Int) (a : Alarm) (h m : Int)
    (hdays : a.days = []) (hp : parseAlarmTime a.time = (some h, some m))
    (_hh0 : 0 ≤ h) (_hh1 : h < 24) (_hm0 : 0 ≤ m) (_hm1 : m < 60) :
    (now < todayAt now h m → scheduleAlarmDate now a = some (todayAt now h m)) ∧
    (todayAt now h m ≤ now → scheduleAlarmDate now a = some (todayAt now h m + 86400)) := by
  by_cases hc : todayAt now h m ≤ now
  · constructor
    · intro hlt
      omega
    · intro _
      simp [scheduleAlarmDate, hp, hdays, hc]
  · constructor
    · intro _
      simp [scheduleAlarmDate, hp, hdays, hc]
    · intro hle
      omega

theorem c6_witness :
    (demoOneTime.days = [] ∧ parseAlarmTime demoOneTime.time = (some 7, some 30)
      ∧ (0 : Int) ≤ 7 ∧ (7 : Int) < 24 ∧ (0 : Int) ≤ 30 ∧ (30 : Int) < 60
      ∧ (0 : Int) < todayAt 0 7 30) ∧
    scheduleAlarmDate 0 demoOneTime = some (todayAt 0 7 30) :=
  ⟨⟨rfl, by decide, by decide, by decide, by decide, by decide, by decide⟩,
    (c6_empty_days_next_occurrence 0 demoOneTime 7 30 rfl (by decide) (by decide)
      (by decide) (by decide) (by decide)).1 (by decide)⟩

/-- C7, counterexample: "13:00 PM" does not conform to the
`H:MM AM|PM` (H in 1-12) format, yet the code's parsing does not fail —
it has no error path and returns the pair (13, 0). -/
theorem c7_counterexample :
    specTimeFormatOK "13:00 PM" = false ∧
    parseAlarmTime "13:00 PM" = (some 13, some 0) := by
  decide

theorem parse_render_aux :
    ∀ h : Nat, h < 13 → ∀ m : Nat, m < 60 →
      parseAlarmTime (renderTime h m "AM")
          = (some (if h = 12 then 0 else (h : Int)), some (m : Int)) ∧
      parseAlarmTime (renderTime h m "PM")
          = (some (if h = 12 then 12 else (h : Int) + 12), some (m : Int)) := by
  decide

/-- C7, amended: the code's time parsing has no failure path at all —
nonconforming input is accepted permissively (see the counterexample) —
but on every conforming input `H:MM AM|PM` with H in 1-12 it returns the
correct 24-hour pair: 12 AM maps to hour 0, 12 PM stays 12, PM adds 12
to hours 1-11, AM leaves hours 1-11 unchanged, minutes pass through. -/
theorem c7_amended (h m : Nat) (hh1 : 1 ≤ h) (hh2 : h ≤ 12) (hm : m < 60) :
    parseAlarmTime (renderTime h m "AM")
        = (some (if h = 12 then 0 else (h : Int)), some (m : Int)) ∧
    parseAlarmTime (renderTime h m "PM")
        = (some (if h = 12 then 12 else (h : Int) + 12), some (m : Int)) :=
  parse_render_aux h (by omega) m hm

theorem c7_witness :
    ((1 : Nat) ≤ 7 ∧ (7 : Nat) ≤ 12 ∧ (30 : Nat) < 60) ∧
    (parseAlarmTime (renderTime 7 30 "AM") = (some 7, some 30) ∧
     parseAlarmTime (renderTime 7 30 "PM") = (some 19, some 30)) :=
  ⟨⟨by decide, by decide, by decide⟩,
    by simpa using c7_amended 7 30 (by decide) (by decide) (by decide)⟩

